import Mathlib

/-!
Verification development for the `octopus_french` Home Assistant integration.

The repository's core (`custom_components/octopus_french/octopus_french.py`,
`coordinator.py`, `utils.py`) is shallowly embedded below: Python dictionaries
become structures with `Option` fields where keys may be absent, Python floats
become `ℚ`, exceptions become explicit result constructors, and the async
transport is modelled as an explicit sequence of responses.  Python truthiness
(`if not x`) is modelled explicitly (empty string and zero are falsy).
-/

/-! ## TokenManager (octopus_french.py, lines 252-297) -/

/-- Safety margin before expiry (`TOKEN_EXPIRY_BUFFER = 60`). -/
def TOKEN_EXPIRY_BUFFER : ℚ := 60

/-- State of `TokenManager`: `_token` and `_expiry` (timestamps as rationals). -/
structure TokenState where
  token : Option String
  expiry : Option ℚ
deriving DecidableEq

/-- Python truthiness of an optional string: `None` and `""` are falsy. -/
def pyFalsyStr : Option String → Bool
  | none => true
  | some s => s == ""

/-- Python truthiness of an optional number: `None` and `0` are falsy. -/
def pyFalsyNum : Option ℚ → Bool
  | none => true
  | some x => x == 0

/-- `TokenManager.is_valid`: false when token or expiry is falsy, else
`now < expiry - TOKEN_EXPIRY_BUFFER`. -/
def is_valid (s : TokenState) (now : ℚ) : Bool :=
  if pyFalsyStr s.token || pyFalsyNum s.expiry then false
  else
    match s.expiry with
    | some e => decide (now < e - TOKEN_EXPIRY_BUFFER)
    | none => false

/-- C3: for a set token with decodable (hence non-empty token string and
non-zero stored) expiry `e`, `is_valid` holds exactly when `now < e - 60`;
at `now = e - 60` it is false; with no token or no expiry it is false. -/
theorem token_is_valid_iff (t : String) (e now : ℚ) (ht : t ≠ "") (he : e ≠ 0) :
    (is_valid ⟨some t, some e⟩ now = true ↔ now < e - 60) ∧
    is_valid ⟨some t, some e⟩ (e - 60) = false ∧
    (∀ tok : Option String, is_valid ⟨tok, none⟩ now = false) ∧
    (∀ ex : Option ℚ, is_valid ⟨none, ex⟩ now = false) := by
  refine ⟨?_, ?_, ?_, ?_⟩
  · simp [is_valid, pyFalsyStr, pyFalsyNum, ht, he, TOKEN_EXPIRY_BUFFER]
  · simp [is_valid, pyFalsyStr, pyFalsyNum, ht, he, TOKEN_EXPIRY_BUFFER]
  · intro tok
    cases tok <;> simp [is_valid, pyFalsyStr, pyFalsyNum]
  · intro ex
    simp [is_valid, pyFalsyStr, pyFalsyNum]

/-- Witness for `token_is_valid_iff` at a concrete token, expiry and time. -/
theorem token_is_valid_iff_witness :
    (is_valid ⟨some "jwt", some 10000⟩ 100 = true ↔ (100 : ℚ) < 10000 - 60) ∧
    is_valid ⟨some "jwt", some 10000⟩ (10000 - 60) = false ∧
    (∀ tok : Option String, is_valid ⟨tok, none⟩ 100 = false) ∧
    (∀ ex : Option ℚ, is_valid ⟨none, ex⟩ 100 = false) :=
  token_is_valid_iff "jwt" 10000 100 (by decide) (by norm_num)

/-! ## Transport executor `_async_execute` (octopus_french.py, lines 316-353)

Each HTTP attempt either yields status 200 with a parsed JSON body (abstracted
by a `Nat` identifier), a non-200 status, or a network/timeout error caught by
the `except (aiohttp.ClientError, TimeoutError)` clause.  The function is total
(it never raises): failure after all attempts is the value `none`.  The list of
back-off sleeps performed is returned alongside the result. -/

/-- Outcome of one HTTP POST attempt. -/
inductive AttemptOutcome where
  | ok (body : Nat)
  | non200
  | netError
deriving DecidableEq

/-- `MAX_RETRY_ATTEMPTS = 3`. -/
def MAX_RETRY_ATTEMPTS : Nat := 3

/-- `RETRY_DELAY = 1` (seconds). -/
def RETRY_DELAY : ℚ := 1

/-- The `for attempt in range(MAX_RETRY_ATTEMPTS)` loop of `_async_execute`,
starting at a given attempt index.  On 200 the body is returned immediately;
otherwise, when `attempt < MAX_RETRY_ATTEMPTS - 1`, the loop sleeps
`RETRY_DELAY * (attempt + 1)` and continues; after the loop, `None`. -/
def async_execute_from (outcomes : Nat → AttemptOutcome) (attempt : Nat) :
    Option Nat × List ℚ :=
  if _h : attempt < MAX_RETRY_ATTEMPTS then
    match outcomes attempt with
    | .ok b => (some b, [])
    | .non200 =>
        let rest := async_execute_from outcomes (attempt + 1)
        if attempt < MAX_RETRY_ATTEMPTS - 1 then
          (rest.1, RETRY_DELAY * (attempt + 1) :: rest.2)
        else rest
    | .netError =>
        let rest := async_execute_from outcomes (attempt + 1)
        if attempt < MAX_RETRY_ATTEMPTS - 1 then
          (rest.1, RETRY_DELAY * (attempt + 1) :: rest.2)
        else rest
  else (none, [])
termination_by MAX_RETRY_ATTEMPTS - attempt
decreasing_by all_goals omega

/-- `_async_execute`: run the attempt loop from attempt 0. -/
def async_execute (outcomes : Nat → AttemptOutcome) : Option Nat × List ℚ :=
  async_execute_from outcomes 0

/-- C4: `_async_execute` is a total function (never raises); it returns the
parsed body of the first attempt with HTTP 200 among the three attempts, pausing
`RETRY_DELAY * k` after the `k`-th failed attempt (linear back-off), and returns
`none` once all `MAX_RETRY_ATTEMPTS = 3` attempts failed. -/
theorem async_execute_spec (outcomes : Nat → AttemptOutcome) :
    async_execute outcomes =
      match outcomes 0, outcomes 1, outcomes 2 with
      | .ok b, _, _ => (some b, [])
      | _, .ok b, _ => (some b, [RETRY_DELAY * 1])
      | _, _, .ok b => (some b, [RETRY_DELAY * 1, RETRY_DELAY * 2])
      | _, _, _ => (none, [RETRY_DELAY * 1, RETRY_DELAY * 2]) := by
  rcases e0 : outcomes 0 with b0 | _ | _ <;>
    rcases e1 : outcomes 1 with b1 | _ | _ <;>
      rcases e2 : outcomes 2 with b2 | _ | _ <;>
        simp [async_execute, async_execute_from, e0, e1, e2, MAX_RETRY_ATTEMPTS,
          RETRY_DELAY] <;>
        norm_num

/-! ## Authenticated executor `_execute_with_auth` (octopus_french.py, 390-432)

A GraphQL response is modelled by the presence of its `"errors"` key together
with the (lowercased) error messages, plus an abstract payload.  The
environment supplies the outcome of `authenticate()` and the response of each
successive authenticated transport call.  Raising is modelled by a `raised`
constructor carrying the Python exception type and message. -/

/-- A parsed GraphQL response: `errors = none` models a body without an
`"errors"` key; messages are already lowercased character lists. -/
structure GqlResponse where
  errors : Option (List (List Char))
  payload : Nat
deriving DecidableEq

/-- The `auth_keywords` set of `_execute_with_auth`. -/
def auth_keywords : List (List Char) :=
  ["authentication".data, "unauthorized".data, "token".data, "expired".data]

/-- Python `keyword in msg` substring test. -/
def containsSub (k m : List Char) : Bool :=
  decide (k <:+: m)

/-- `is_auth_error`: some message contains some authentication keyword. -/
def is_auth_error (msgs : List (List Char)) : Bool :=
  msgs.any (fun m => auth_keywords.any (fun k => containsSub k m))

/-- Result of `_execute_with_auth`: a returned response or a raised exception
(Python exception type name and message). -/
inductive ExecOutcome where
  | raised (excType : String) (msg : String)
  | ok (r : GqlResponse)
deriving DecidableEq

/-- Environment of one `_execute_with_auth` call: whether `authenticate()`
succeeds, and the response of the `k`-th authenticated transport call
(`none` models a falsy transport result). -/
structure ApiEnv where
  authSucceeds : Bool
  transport : Nat → Option GqlResponse

/-- `_execute_with_auth env tokenValid callIdx retry_count` returns the
outcome together with the number of transport calls made and the number of
`authenticate()` invocations.  Clearing the token before the recursive retry is
reflected by passing `tokenValid = false`, which forces a re-authentication. -/
def execute_with_auth (env : ApiEnv) (tokenValid : Bool)
    (callIdx retry_count : Nat) : ExecOutcome × Nat × Nat :=
  let authCalls := if tokenValid then 0 else 1
  if !tokenValid && !env.authSucceeds then
    (.raised "RuntimeError" "Authentication failed", 0, authCalls)
  else
    match env.transport callIdx with
    | none => (.raised "RuntimeError" "API returned empty response", 1, authCalls)
    | some r =>
      if _h : r.errors.isSome ∧ retry_count < 1 then
        if is_auth_error (r.errors.getD []) then
          let rest := execute_with_auth env false (callIdx + 1) (retry_count + 1)
          (rest.1, 1 + rest.2.1, authCalls + rest.2.2)
        else (.ok r, 1, authCalls)
      else (.ok r, 1, authCalls)
termination_by 1 - retry_count
decreasing_by omega

/-- C1: when the first response carries an authentication-related error and
`retry_count = 0`, the call clears the token (forcing exactly one
re-authentication), retries exactly once (two transport calls in total), and
returns the second response as-is — whatever errors it contains. -/
theorem execute_with_auth_retries_once (env : ApiEnv) (r₁ r₂ : GqlResponse)
    (hauth : env.authSucceeds = true)
    (h0 : env.transport 0 = some r₁) (h1 : env.transport 1 = some r₂)
    (herr : r₁.errors.isSome = true)
    (hkw : is_auth_error (r₁.errors.getD []) = true) :
    execute_with_auth env true 0 0 = (.ok r₂, 2, 1) := by
  rw [execute_with_auth]
  simp only [h0, Bool.not_true, Bool.false_and, Bool.if_false_left]
  rw [dif_pos ⟨herr, by omega⟩, if_pos hkw]
  rw [execute_with_auth]
  simp [hauth, h1]

/-- Witness for `execute_with_auth_retries_once`: a concrete environment whose
first response embeds a "token expired" error and whose second response still
embeds a (non-auth) error; the second response is returned verbatim. -/
theorem execute_with_auth_retries_once_witness :
    execute_with_auth
      ⟨true, fun k =>
        if k = 0 then some ⟨some ["token expired".data], 7⟩
        else some ⟨some ["rate limited".data], 8⟩⟩
      true 0 0 = (.ok ⟨some ["rate limited".data], 8⟩, 2, 1) :=
  execute_with_auth_retries_once _ _ _ rfl rfl rfl rfl (by decide)

/-- The Python exception type of an outcome (`""` when nothing was raised). -/
def excTypeOf : ExecOutcome → String
  | .raised t _ => t
  | .ok _ => ""

/-- C7 counterexample: both failure paths of `_execute_with_auth` raise the
same exception type `RuntimeError` (lines 400 and 410 of the source), so the
failure on "no valid token" and the failure on "empty transport response" are
not distinct exception types. -/
theorem exec_failures_share_exception_type :
    (execute_with_auth ⟨false, fun _ => none⟩ false 0 0).1
        = .raised "RuntimeError" "Authentication failed" ∧
    (execute_with_auth ⟨true, fun _ => none⟩ true 0 0).1
        = .raised "RuntimeError" "API returned empty response" ∧
    excTypeOf (execute_with_auth ⟨false, fun _ => none⟩ false 0 0).1
      = excTypeOf (execute_with_auth ⟨true, fun _ => none⟩ true 0 0).1 := by
  have h1 : (execute_with_auth ⟨false, fun _ => none⟩ false 0 0).1
      = .raised "RuntimeError" "Authentication failed" := by
    rw [execute_with_auth]
    simp
  have h2 : (execute_with_auth ⟨true, fun _ => none⟩ true 0 0).1
      = .raised "RuntimeError" "API returned empty response" := by
    rw [execute_with_auth]
    simp
  exact ⟨h1, h2, by rw [h1, h2]; rfl⟩

/-- C7 amended: `_execute_with_auth` raises `RuntimeError` with message
"Authentication failed" when no valid token can be obtained, and `RuntimeError`
with message "API returned empty response" when the transport returns a falsy
result; the two failures share one exception type and are distinguished only by
their messages. -/
theorem execute_with_auth_failure_messages (env env' : ApiEnv) (tv : Bool)
    (cIdx rc cIdx' rc' : Nat)
    (hfail : env.authSucceeds = false)
    (hok : env'.authSucceeds = true) (hnone : env'.transport cIdx' = none) :
    (execute_with_auth env false cIdx rc).1
        = .raised "RuntimeError" "Authentication failed" ∧
    (execute_with_auth env' tv cIdx' rc').1
        = .raised "RuntimeError" "API returned empty response" ∧
    ("Authentication failed" : String) ≠ "API returned empty response" := by
  refine ⟨?_, ?_, by decide⟩
  · rw [execute_with_auth]
    simp [hfail]
  · rw [execute_with_auth]
    cases tv <;> simp [hok, hnone]

/-- Witness for `execute_with_auth_failure_messages` at concrete
environments. -/
theorem execute_with_auth_failure_messages_witness :
    (execute_with_auth ⟨false, fun _ => none⟩ false 0 0).1
        = .raised "RuntimeError" "Authentication failed" ∧
    (execute_with_auth ⟨true, fun _ => none⟩ true 0 0).1
        = .raised "RuntimeError" "API returned empty response" ∧
    ("Authentication failed" : String) ≠ "API returned empty response" :=
  execute_with_auth_failure_messages ⟨false, fun _ => none⟩
    ⟨true, fun _ => none⟩ true 0 0 0 0 rfl rfl rfl

/-! ## Tariff extraction `_extract_tariffs` (octopus_french.py, lines 616-663)

A consumption rate is one element of the `consumption_rates` list built from
the successfully parsed `consumptionRates` edges (its `price_ht` / `price_ttc`
fields already divided by 100 and rounded).  The list is sorted with Python's
stable `list.sort(key=lambda x: x["price_ttc"], reverse=True)`, modelled by the
stable `List.insertionSort` under the descending comparison on `price_ttc`. -/

/-- One parsed consumption-rate dict. -/
structure ConsumptionRate where
  price_ht : ℚ
  price_ttc : ℚ
  currency : String
  unit_type : String
deriving DecidableEq

/-- Descending comparison on the tax-included price, as used by
`sort(key=lambda x: x["price_ttc"], reverse=True)`. -/
def ttcGE (a b : ConsumptionRate) : Prop :=
  b.price_ttc ≤ a.price_ttc

instance : DecidableRel ttcGE :=
  fun a b => inferInstanceAs (Decidable (b.price_ttc ≤ a.price_ttc))

instance : IsTotal ConsumptionRate ttcGE :=
  ⟨fun a b => le_total b.price_ttc a.price_ttc⟩

instance : IsTrans ConsumptionRate ttcGE :=
  ⟨fun _ _ _ h1 h2 => le_trans h2 h1⟩

/-- The `tariffs["consumption"]` slots (plus the `"base"` key added when a
single rate exists). -/
structure Tariffs where
  heures_pleines : Option ConsumptionRate
  heures_creuses : Option ConsumptionRate
  base : Option ConsumptionRate
deriving DecidableEq

/-- Consumption part of `_extract_tariffs` (lines 638-663): sort the parsed
rates descending by `price_ttc`; with two or more rates, the first two sorted
rates become `heures_pleines` and `heures_creuses`; with exactly one rate it
becomes `base`. -/
def extract_tariffs_consumption (rates : List ConsumptionRate) : Tariffs :=
  let sorted := List.insertionSort ttcGE rates
  if 2 ≤ sorted.length then
    ⟨sorted[0]?, sorted[1]?, none⟩
  else if sorted.length = 1 then
    ⟨none, none, sorted[0]?⟩
  else
    ⟨none, none, none⟩

instance : IsAntisymm ℚ (fun a b => b ≤ a) :=
  ⟨fun _ _ h1 h2 => le_antisymm h2 h1⟩

/-- Mapping the sort to the keys only depends on the multiset of rates. -/
theorem insertionSort_ttc_map_perm_eq (l l' : List ConsumptionRate)
    (h : l.Perm l') :
    (List.insertionSort ttcGE l).map (fun r => r.price_ttc)
      = (List.insertionSort ttcGE l').map (fun r => r.price_ttc) := by
  apply List.eq_of_perm_of_sorted (r := fun (a b : ℚ) => b ≤ a)
  · exact (((List.perm_insertionSort ttcGE l).trans h).trans
      (List.perm_insertionSort ttcGE l').symm).map _
  · have hs := List.sorted_insertionSort ttcGE l
    exact List.pairwise_map.mpr (hs.imp (fun hab => hab))
  · have hs := List.sorted_insertionSort ttcGE l'
    exact List.pairwise_map.mpr (hs.imp (fun hab => hab))

/-- C2: with two or more parsed consumption rates, `heures_pleines` receives a
rate of maximal tax-included price, `heures_creuses` a rate of maximal price
among the remaining ones (the second-highest), and the assigned prices do not
depend on the order of the input list; with exactly one rate it is assigned to
`base` (and peak/off-peak stay unset). -/
theorem extract_tariffs_spec (rates : List ConsumptionRate) :
    (2 ≤ rates.length →
      ∃ hp hc,
        (extract_tariffs_consumption rates).heures_pleines = some hp ∧
        (extract_tariffs_consumption rates).heures_creuses = some hc ∧
        hp ∈ rates ∧ hc ∈ rates.erase hp ∧
        (∀ r ∈ rates, r.price_ttc ≤ hp.price_ttc) ∧
        (∀ r ∈ rates.erase hp, r.price_ttc ≤ hc.price_ttc) ∧
        (∀ rates' : List ConsumptionRate, rates.Perm rates' →
          (extract_tariffs_consumption rates').heures_pleines.map
              (fun r => r.price_ttc) = some hp.price_ttc ∧
          (extract_tariffs_consumption rates').heures_creuses.map
              (fun r => r.price_ttc) = some hc.price_ttc)) ∧
    (rates.length = 1 →
      (extract_tariffs_consumption rates).base = rates.head? ∧
      (extract_tariffs_consumption rates).heures_pleines = none ∧
      (extract_tariffs_consumption rates).heures_creuses = none) := by
  constructor
  · intro h2
    have hperm := List.perm_insertionSort ttcGE rates
    have hsorted := List.sorted_insertionSort ttcGE rates
    have hlen : (List.insertionSort ttcGE rates).length = rates.length :=
      hperm.length_eq
    obtain ⟨a, b, t, hs⟩ : ∃ a b t, List.insertionSort ttcGE rates = a :: b :: t := by
      rcases hsort : List.insertionSort ttcGE rates with _ | ⟨a, _ | ⟨b, t⟩⟩
      · rw [hsort] at hlen
        simp at hlen
        omega
      · rw [hsort] at hlen
        simp at hlen
        omega
      · exact ⟨_, _, _, rfl⟩
    rw [hs] at hsorted
    have hext : extract_tariffs_consumption rates = ⟨some a, some b, none⟩ := by
      simp only [extract_tariffs_consumption]
      rw [hs, if_pos (by simp only [List.length_cons]; omega)]
      simp
    have herase : (rates.erase a).Perm (b :: t) := by
      have h' := (hperm.erase a).symm
      rwa [hs, List.erase_cons_head] at h'
    refine ⟨a, b, ?_, ?_, ?_, ?_, ?_, ?_, ?_⟩
    · rw [hext]
    · rw [hext]
    · exact hperm.mem_iff.mp (hs ▸ List.mem_cons_self a _)
    · exact herase.mem_iff.mpr (List.mem_cons_self b t)
    · intro r hr
      have hrs : r ∈ a :: b :: t := by
        have := hperm.mem_iff.mpr hr
        rwa [hs] at this
      rcases List.mem_cons.mp hrs with rfl | hrs'
      · exact le_refl _
      · exact List.rel_of_sorted_cons hsorted r hrs'
    · intro r hr
      have hrs : r ∈ b :: t := herase.mem_iff.mp hr
      rcases List.mem_cons.mp hrs with rfl | hrs'
      · exact le_refl _
      · exact List.rel_of_sorted_cons hsorted.of_cons r hrs'
    · intro rates' hperm'
      have hmap := insertionSort_ttc_map_perm_eq rates rates' hperm'
      have hlen' : (List.insertionSort ttcGE rates').length = rates.length := by
        rw [(List.perm_insertionSort ttcGE rates').length_eq, hperm'.length_eq]
      obtain ⟨a', b', t', hs'⟩ :
          ∃ a' b' t', List.insertionSort ttcGE rates' = a' :: b' :: t' := by
        rcases hsort : List.insertionSort ttcGE rates' with _ | ⟨a', _ | ⟨b', t'⟩⟩
        · rw [hsort] at hlen'
          simp at hlen'
          omega
        · rw [hsort] at hlen'
          simp at hlen'
          omega
        · exact ⟨_, _, _, rfl⟩
      rw [hs, hs'] at hmap
      simp only [List.map_cons, List.cons.injEq] at hmap
      have hext' : extract_tariffs_consumption rates' = ⟨some a', some b', none⟩ := by
        simp only [extract_tariffs_consumption]
        rw [hs', if_pos (by simp only [List.length_cons]; omega)]
        simp
      rw [hext']
      exact ⟨by simp [hmap.1], by simp [hmap.2.1]⟩
  · intro h1
    obtain ⟨r, rfl⟩ := List.length_eq_one.mp h1
    refine ⟨?_, ?_, ?_⟩ <;> rfl

/-- Witness for `extract_tariffs_spec`: two rates priced 0.18 and 0.25
(tax-included), given in ascending order. -/
theorem extract_tariffs_spec_witness :
    (2 ≤ ([⟨(14 : ℚ)/100, (18 : ℚ)/100, "EUR", "kWh"⟩,
           ⟨(20 : ℚ)/100, (25 : ℚ)/100, "EUR", "kWh"⟩] :
            List ConsumptionRate).length →
      ∃ hp hc,
        (extract_tariffs_consumption
            [⟨(14 : ℚ)/100, (18 : ℚ)/100, "EUR", "kWh"⟩,
             ⟨(20 : ℚ)/100, (25 : ℚ)/100, "EUR", "kWh"⟩]).heures_pleines
          = some hp ∧
        (extract_tariffs_consumption
            [⟨(14 : ℚ)/100, (18 : ℚ)/100, "EUR", "kWh"⟩,
             ⟨(20 : ℚ)/100, (25 : ℚ)/100, "EUR", "kWh"⟩]).heures_creuses
          = some hc ∧
        hp ∈ ([⟨(14 : ℚ)/100, (18 : ℚ)/100, "EUR", "kWh"⟩,
               ⟨(20 : ℚ)/100, (25 : ℚ)/100, "EUR", "kWh"⟩] :
                List ConsumptionRate) ∧
        hc ∈ ([⟨(14 : ℚ)/100, (18 : ℚ)/100, "EUR", "kWh"⟩,
               ⟨(20 : ℚ)/100, (25 : ℚ)/100, "EUR", "kWh"⟩] :
                List ConsumptionRate).erase hp ∧
        (∀ r ∈ ([⟨(14 : ℚ)/100, (18 : ℚ)/100, "EUR", "kWh"⟩,
                 ⟨(20 : ℚ)/100, (25 : ℚ)/100, "EUR", "kWh"⟩] :
                  List ConsumptionRate), r.price_ttc ≤ hp.price_ttc) ∧
        (∀ r ∈ ([⟨(14 : ℚ)/100, (18 : ℚ)/100, "EUR", "kWh"⟩,
                 ⟨(20 : ℚ)/100, (25 : ℚ)/100, "EUR", "kWh"⟩] :
                  List ConsumptionRate).erase hp,
            r.price_ttc ≤ hc.price_ttc) ∧
        (∀ rates' : List ConsumptionRate,
          ([⟨(14 : ℚ)/100, (18 : ℚ)/100, "EUR", "kWh"⟩,
            ⟨(20 : ℚ)/100, (25 : ℚ)/100, "EUR", "kWh"⟩] :
             List ConsumptionRate).Perm rates' →
          (extract_tariffs_consumption rates').heures_pleines.map
              (fun r => r.price_ttc) = some hp.price_ttc ∧
          (extract_tariffs_consumption rates').heures_creuses.map
              (fun r => r.price_ttc) = some hc.price_ttc)) ∧
    (([⟨(14 : ℚ)/100, (18 : ℚ)/100, "EUR", "kWh"⟩,
       ⟨(20 : ℚ)/100, (25 : ℚ)/100, "EUR", "kWh"⟩] :
        List ConsumptionRate).length = 1 →
      (extract_tariffs_consumption
          [⟨(14 : ℚ)/100, (18 : ℚ)/100, "EUR", "kWh"⟩,
           ⟨(20 : ℚ)/100, (25 : ℚ)/100, "EUR", "kWh"⟩]).base
        = ([⟨(14 : ℚ)/100, (18 : ℚ)/100, "EUR", "kWh"⟩,
            ⟨(20 : ℚ)/100, (25 : ℚ)/100, "EUR", "kWh"⟩] :
             List ConsumptionRate).head? ∧
      (extract_tariffs_consumption
          [⟨(14 : ℚ)/100, (18 : ℚ)/100, "EUR", "kWh"⟩,
           ⟨(20 : ℚ)/100, (25 : ℚ)/100, "EUR", "kWh"⟩]).heures_pleines
        = none ∧
      (extract_tariffs_consumption
          [⟨(14 : ℚ)/100, (18 : ℚ)/100, "EUR", "kWh"⟩,
           ⟨(20 : ℚ)/100, (25 : ℚ)/100, "EUR", "kWh"⟩]).heures_creuses
        = none) :=
  extract_tariffs_spec _

/-! ## Supply-point classification `_extract_supply_points`
(octopus_french.py, lines 545-573)

A meter-point node is modelled by the presence of its four type-distinguishing
keys (`meterKind`, `distributorStatus` for electricity; `gasNature`,
`annualConsumption` for gas) plus an abstract payload standing for the other
fields (`prm`, `supply_point_id`, `market_name`, statuses, ...).  The input is
the flattened sequence of `properties → supplyPoints → edges → node.meterPoint`
dicts the loop visits. -/

/-- A `meterPoint` dict, abstracted to its classification keys. -/
structure MeterPointNode where
  hasMeterKind : Bool
  hasDistributorStatus : Bool
  hasGasNature : Bool
  hasAnnualConsumption : Bool
  payload : Nat
deriving DecidableEq

/-- Loop body of `_extract_supply_points`: electricity keys are checked first,
gas keys only in the `elif`, all others are dropped. -/
def classify_step (acc : List MeterPointNode × List MeterPointNode)
    (mp : MeterPointNode) : List MeterPointNode × List MeterPointNode :=
  if mp.hasMeterKind || mp.hasDistributorStatus then
    (acc.1 ++ [mp], acc.2)
  else if mp.hasGasNature || mp.hasAnnualConsumption then
    (acc.1, acc.2 ++ [mp])
  else acc

/-- `_extract_supply_points`: partition the visited meter points into the
`"electricity"` and `"gas"` lists. -/
def extract_supply_points (nodes : List MeterPointNode) :
    List MeterPointNode × List MeterPointNode :=
  nodes.foldl classify_step ([], [])

/-- The fold is equivalent to two filters (appending to either list). -/
theorem extract_supply_points_aux (nodes : List MeterPointNode)
    (e g : List MeterPointNode) :
    nodes.foldl classify_step (e, g) =
      (e ++ nodes.filter (fun mp => mp.hasMeterKind || mp.hasDistributorStatus),
       g ++ nodes.filter (fun mp =>
        !(mp.hasMeterKind || mp.hasDistributorStatus) &&
          (mp.hasGasNature || mp.hasAnnualConsumption))) := by
  induction nodes generalizing e g with
  | nil => simp
  | cons mp rest ih =>
    simp only [List.foldl_cons, List.filter_cons, classify_step]
    by_cases h1 : (mp.hasMeterKind || mp.hasDistributorStatus) = true
    · simp only [h1, if_pos trivial]
      rw [ih]
      simp [h1]
    · have h1' : (mp.hasMeterKind || mp.hasDistributorStatus) = false := by
        simpa using h1
      by_cases h2 : (mp.hasGasNature || mp.hasAnnualConsumption) = true
      · simp only [h1', h2]
        rw [if_neg (by simp), if_pos trivial, ih]
        simp [h1', h2]
      · have h2' : (mp.hasGasNature || mp.hasAnnualConsumption) = false := by
          simpa using h2
        simp only [h1', h2']
        rw [if_neg (by simp), if_neg (by simp), ih]
        simp [h1', h2']

/-- C9: a node with an electricity-distinguishing key (`meterKind` or
`distributorStatus`) lands in the electricity list, even when it also carries
gas keys; a node lands in the gas list exactly when it has no electricity key
but has `gasNature` or `annualConsumption`; a node with none of the four keys
appears in neither list. -/
theorem extract_supply_points_classification (nodes : List MeterPointNode)
    (mp : MeterPointNode) :
    (mp ∈ (extract_supply_points nodes).1 ↔
      mp ∈ nodes ∧
        (mp.hasMeterKind = true ∨ mp.hasDistributorStatus = true)) ∧
    (mp ∈ (extract_supply_points nodes).2 ↔
      mp ∈ nodes ∧
        ¬(mp.hasMeterKind = true ∨ mp.hasDistributorStatus = true) ∧
        (mp.hasGasNature = true ∨ mp.hasAnnualConsumption = true)) ∧
    (mp.hasMeterKind = false → mp.hasDistributorStatus = false →
      mp.hasGasNature = false → mp.hasAnnualConsumption = false →
      mp ∉ (extract_supply_points nodes).1 ∧
        mp ∉ (extract_supply_points nodes).2) := by
  have hfold := extract_supply_points_aux nodes [] []
  refine ⟨?_, ?_, ?_⟩
  · rw [extract_supply_points, hfold]
    simp [List.mem_filter]
  · rw [extract_supply_points, hfold]
    simp only [List.nil_append, List.mem_filter]
    constructor
    · rintro ⟨hm, hcond⟩
      simp only [Bool.and_eq_true, Bool.not_eq_true', Bool.or_eq_false_iff,
        Bool.or_eq_true] at hcond
      exact ⟨hm, by simp [hcond.1.1, hcond.1.2], hcond.2⟩
    · rintro ⟨hm, hne, hgas⟩
      refine ⟨hm, ?_⟩
      simp only [Bool.and_eq_true, Bool.not_eq_true', Bool.or_eq_false_iff,
        Bool.or_eq_true]
      constructor
      · constructor
        · cases hmk : mp.hasMeterKind
          · rfl
          · exact absurd (Or.inl hmk) hne
        · cases hds : mp.hasDistributorStatus
          · rfl
          · exact absurd (Or.inr hds) hne
      · exact hgas
  · intro hmk hds hgn hac
    rw [extract_supply_points, hfold]
    constructor
    · simp [List.mem_filter, hmk, hds]
    · simp [List.mem_filter, hmk, hds, hgn, hac]

/-- Witness for `extract_supply_points_classification`: one node carrying both
`distributorStatus` and `gasNature` is classified as electricity, and a bare
node is dropped. -/
theorem extract_supply_points_classification_witness :
    ((⟨false, true, true, false, 0⟩ : MeterPointNode) ∈
        (extract_supply_points
          [⟨false, true, true, false, 0⟩, ⟨false, false, false, false, 1⟩]).1 ↔
      (⟨false, true, true, false, 0⟩ : MeterPointNode) ∈
          [(⟨false, true, true, false, 0⟩ : MeterPointNode),
           ⟨false, false, false, false, 1⟩] ∧
        ((false : Bool) = true ∨ (true : Bool) = true)) ∧
    ((⟨false, true, true, false, 0⟩ : MeterPointNode) ∈
        (extract_supply_points
          [⟨false, true, true, false, 0⟩, ⟨false, false, false, false, 1⟩]).2 ↔
      (⟨false, true, true, false, 0⟩ : MeterPointNode) ∈
          [(⟨false, true, true, false, 0⟩ : MeterPointNode),
           ⟨false, false, false, false, 1⟩] ∧
        ¬((false : Bool) = true ∨ (true : Bool) = true) ∧
        ((true : Bool) = true ∨ (false : Bool) = true)) ∧
    ((false : Bool) = false → (true : Bool) = false →
      (true : Bool) = false → (false : Bool) = false →
      (⟨false, true, true, false, 0⟩ : MeterPointNode) ∉
          (extract_supply_points
            [⟨false, true, true, false, 0⟩, ⟨false, false, false, false, 1⟩]).1 ∧
        (⟨false, true, true, false, 0⟩ : MeterPointNode) ∉
          (extract_supply_points
            [⟨false, true, true, false, 0⟩, ⟨false, false, false, false, 1⟩]).2) :=
  extract_supply_points_classification
    [⟨false, true, true, false, 0⟩, ⟨false, false, false, false, 1⟩]
    ⟨false, true, true, false, 0⟩

/-! ## Coordinator refresh cycle: terminated-meter filter
(coordinator.py, lines 64-110)

`_fetch_all_data` first filters the electricity supply-point list, then takes
the first remaining meter's `id` and issues the reading and index queries for
it (no query is issued when the filtered list is empty). -/

/-- An electricity supply-point dict as the coordinator sees it. -/
structure ElecSupplyPoint where
  id : String
  distributorStatus : Option String
  poweredStatus : Option String
deriving DecidableEq

/-- The list comprehension of coordinator.py lines 65-72: drop exactly the
meters with `distributorStatus == "RESIL"` and `poweredStatus == "LIMI"`. -/
def filter_terminated (sps : List ElecSupplyPoint) : List ElecSupplyPoint :=
  sps.filter (fun sp =>
    !(sp.distributorStatus == some "RESIL" && sp.poweredStatus == some "LIMI"))

/-- `electricity_meter_id`: the id of the first supply point left after the
filter, if any (coordinator.py lines 75-80). -/
def electricity_meter_id (sps : List ElecSupplyPoint) : Option String :=
  (filter_terminated sps).head?.map (fun sp => sp.id)

/-- A downstream electricity query of the refresh cycle. -/
inductive FetchQuery where
  | energyReadings (meterId : String)
  | electricityIndex (meterId : String)
deriving DecidableEq

/-- Meter targeted by a query. -/
def queryMeterId : FetchQuery → String
  | .energyReadings i => i
  | .electricityIndex i => i

/-- The electricity queries issued by the cycle (coordinator.py lines 96-110):
only for the meter id obtained after filtering. -/
def electricity_queries (sps : List ElecSupplyPoint) : List FetchQuery :=
  match electricity_meter_id sps with
  | some i => [.energyReadings i, .electricityIndex i]
  | none => []

/-- C5: a supply point survives the coordinator's filter iff it is in the input
and not both `distributorStatus = "RESIL"` and `poweredStatus = "LIMI"` (one
condition alone keeps the meter); and every reading/index query the cycle
issues targets a meter of the already-filtered list, so no terminated meter
generates a query. -/
theorem coordinator_filters_terminated (sps : List ElecSupplyPoint)
    (sp : ElecSupplyPoint) :
    (sp ∈ filter_terminated sps ↔
      sp ∈ sps ∧
        ¬(sp.distributorStatus = some "RESIL" ∧
          sp.poweredStatus = some "LIMI")) ∧
    (∀ q ∈ electricity_queries sps, ∃ sp' ∈ filter_terminated sps,
      queryMeterId q = sp'.id) := by
  constructor
  · simp only [filter_terminated, List.mem_filter, Bool.not_eq_true',
      Bool.and_eq_false_iff, beq_eq_false_iff_ne, ne_eq]
    constructor
    · rintro ⟨hm, hcond⟩
      refine ⟨hm, ?_⟩
      rintro ⟨hd, hp⟩
      rcases hcond with h | h
      · exact h hd
      · exact h hp
    · rintro ⟨hm, hcond⟩
      refine ⟨hm, ?_⟩
      by_cases hd : sp.distributorStatus = some "RESIL"
      · exact Or.inr (fun hp => hcond ⟨hd, hp⟩)
      · exact Or.inl hd
  · intro q hq
    rcases hh : (filter_terminated sps).head? with _ | sp'
    · simp [electricity_queries, electricity_meter_id, hh] at hq
    · have hsp' : sp' ∈ filter_terminated sps := by
        rcases hl : filter_terminated sps with _ | ⟨x, xs⟩
        · rw [hl] at hh
          simp at hh
        · rw [hl] at hh
          simp at hh
          exact List.mem_cons.mpr (Or.inl hh.symm)
      simp only [electricity_queries, electricity_meter_id, hh, Option.map_some]
        at hq
      rcases List.mem_cons.mp hq with rfl | hq'
      · exact ⟨sp', hsp', rfl⟩
      · rcases List.mem_singleton.mp hq' with rfl
        exact ⟨sp', hsp', rfl⟩

/-- Witness for `coordinator_filters_terminated`: a meter that is `RESIL` but
not `LIMI` is kept and targeted by both queries. -/
theorem coordinator_filters_terminated_witness :
    ((⟨"m1", some "RESIL", some "ALIM"⟩ : ElecSupplyPoint) ∈
        filter_terminated [⟨"m1", some "RESIL", some "ALIM"⟩] ↔
      (⟨"m1", some "RESIL", some "ALIM"⟩ : ElecSupplyPoint) ∈
          [(⟨"m1", some "RESIL", some "ALIM"⟩ : ElecSupplyPoint)] ∧
        ¬((some "RESIL" : Option String) = some "RESIL" ∧
          (some "ALIM" : Option String) = some "LIMI")) ∧
    (∀ q ∈ electricity_queries [⟨"m1", some "RESIL", some "ALIM"⟩],
      ∃ sp' ∈ filter_terminated [⟨"m1", some "RESIL", some "ALIM"⟩],
        queryMeterId q = sp'.id) :=
  coordinator_filters_terminated [⟨"m1", some "RESIL", some "ALIM"⟩]
    ⟨"m1", some "RESIL", some "ALIM"⟩

/-! ## Python dictionaries as association lists

`ledgers[key] = value` and `payment_requests[key] = value` replace an existing
entry in place or append a new one; `key in dict` is membership among the
stored keys. -/

/-- Python-dict assignment on an association list. -/
def dictInsert {α : Type} (k : String) (v : α) :
    List (String × α) → List (String × α)
  | [] => [(k, v)]
  | (k', v') :: rest =>
      if k' = k then (k, v) :: rest else (k', v') :: dictInsert k v rest

/-- Python `key in dict`. -/
def dictContains {α : Type} (k : String) (d : List (String × α)) : Bool :=
  d.any (fun p => p.1 == k)

/-- Assigning an absent key appends the new entry. -/
theorem dictInsert_not_mem {α : Type} (k : String) (v : α)
    (d : List (String × α)) (h : ∀ p ∈ d, p.1 ≠ k) :
    dictInsert k v d = d ++ [(k, v)] := by
  induction d with
  | nil => rfl
  | cons p rest ih =>
    obtain ⟨k', v'⟩ := p
    simp only [dictInsert]
    rw [if_neg (h (k', v') (List.mem_cons_self _ _))]
    rw [ih (fun q hq => h q (List.mem_cons_of_mem _ hq))]
    rfl

/-- Assigning a different key does not change `dictContains`. -/
theorem dictContains_insert_ne {α : Type} (k k' : String) (v : α)
    (d : List (String × α)) (h : k' ≠ k) :
    dictContains k (dictInsert k' v d) = dictContains k d := by
  induction d with
  | nil => simp [dictInsert, dictContains, h]
  | cons p rest ih =>
    obtain ⟨k₀, v₀⟩ := p
    by_cases h0 : k₀ = k'
    · subst h0
      simp [dictInsert, dictContains, h]
    · simp only [dictInsert, if_neg h0, dictContains, List.any_cons]
      rw [show (rest.any (fun p => p.1 == k))
            = dictContains k rest from rfl] at *
      rw [show (dictInsert k' v rest).any (fun p => p.1 == k)
            = dictContains k (dictInsert k' v rest) from rfl]
      rw [ih]

/-! ## Payment-request enrichment `_fetch_payment_requests`
(coordinator.py, lines 139-154)

`lookup` models `api_client.get_payment_requests`: it may raise (`.error`),
return `None`/a falsy result (`.ok none`), or return a payment request
(`.ok (some pr)`).  Each ledger's lookup runs inside `with suppress(Exception)`
so a raise only skips that ledger. -/

/-- A ledger entry of the normalised ledger map. -/
structure LedgerInfo where
  balance : Int
  name : String
  number : String
deriving DecidableEq

/-- The latest payment request of one ledger. -/
structure PaymentRequest where
  paymentStatus : String
  totalAmount : ℚ
  customerAmount : ℚ
  expectedPaymentDate : String
deriving DecidableEq

/-- Loop body of `_fetch_payment_requests`: skip falsy ledger numbers, swallow
exceptions of the lookup, skip falsy lookup results, else store the request
under the ledger type. -/
def fetch_payment_step
    (lookup : String → Except String (Option PaymentRequest))
    (acc : List (String × PaymentRequest)) (p : String × LedgerInfo) :
    List (String × PaymentRequest) :=
  if p.2.number = "" then acc
  else
    match lookup p.2.number with
    | .error _ => acc
    | .ok none => acc
    | .ok (some pr) => dictInsert p.1 pr acc

/-- `_fetch_payment_requests`: fold over the ledger map. -/
def fetch_payment_requests
    (lookup : String → Except String (Option PaymentRequest))
    (ledgers : List (String × LedgerInfo)) : List (String × PaymentRequest) :=
  ledgers.foldl (fetch_payment_step lookup) []

/-- The per-ledger outcome kept by `_fetch_payment_requests`. -/
def payment_result (lookup : String → Except String (Option PaymentRequest))
    (p : String × LedgerInfo) : Option (String × PaymentRequest) :=
  if p.2.number = "" then none
  else
    match lookup p.2.number with
    | .ok (some pr) => some (p.1, pr)
    | _ => none

/-- Unrolling the fold: with pairwise-distinct ledger types (Python dict keys),
the result collects exactly the successful, non-falsy lookups. -/
theorem fetch_payment_aux
    (lookup : String → Except String (Option PaymentRequest))
    (ledgers : List (String × LedgerInfo))
    (acc : List (String × PaymentRequest))
    (hd : ∀ p ∈ ledgers, ∀ q ∈ acc, q.1 ≠ p.1)
    (hnd : (ledgers.map Prod.fst).Nodup) :
    ledgers.foldl (fetch_payment_step lookup) acc =
      acc ++ ledgers.filterMap (payment_result lookup) := by
  induction ledgers generalizing acc with
  | nil => simp
  | cons p rest ih =>
    have hndrest : (rest.map Prod.fst).Nodup := (List.nodup_cons.mp hnd).2
    have hphead : p.1 ∉ rest.map Prod.fst := (List.nodup_cons.mp hnd).1
    simp only [List.foldl_cons, List.filterMap_cons]
    by_cases hnum : p.2.number = ""
    · have hstep : fetch_payment_step lookup acc p = acc := by
        simp [fetch_payment_step, hnum]
      have hres : payment_result lookup p = none := by
        simp [payment_result, hnum]
      rw [hstep, hres, ih acc
        (fun r hr q hq => hd r (List.mem_cons_of_mem _ hr) q hq) hndrest]
    · rcases hlk : lookup p.2.number with err | opr
      · have hstep : fetch_payment_step lookup acc p = acc := by
          simp [fetch_payment_step, hnum, hlk]
        have hres : payment_result lookup p = none := by
          simp [payment_result, hnum, hlk]
        rw [hstep, hres, ih acc
          (fun r hr q hq => hd r (List.mem_cons_of_mem _ hr) q hq) hndrest]
      · rcases opr with _ | pr
        · have hstep : fetch_payment_step lookup acc p = acc := by
            simp [fetch_payment_step, hnum, hlk]
          have hres : payment_result lookup p = none := by
            simp [payment_result, hnum, hlk]
          rw [hstep, hres, ih acc
            (fun r hr q hq => hd r (List.mem_cons_of_mem _ hr) q hq) hndrest]
        · have hstep : fetch_payment_step lookup acc p
              = acc ++ [(p.1, pr)] := by
            simp only [fetch_payment_step, if_neg hnum, hlk]
            exact dictInsert_not_mem _ _ _
              (fun q hq => hd p (List.mem_cons_self _ _) q hq)
          have hres : payment_result lookup p = some (p.1, pr) := by
            simp [payment_result, hnum, hlk]
          rw [hstep, hres]
          rw [ih (acc ++ [(p.1, pr)]) ?_ hndrest]
          · simp
          · intro r hr q hq
            rcases List.mem_append.mp hq with hq' | hq'
            · exact hd r (List.mem_cons_of_mem _ hr) q hq'
            · rcases List.mem_singleton.mp hq' with rfl
              intro hcontra
              exact hphead (hcontra ▸ List.mem_map_of_mem Prod.fst hr)

/-- C8: with pairwise-distinct ledger types, a payment request appears in the
result exactly for the ledgers whose number is set and whose lookup returned a
request without raising; a ledger whose lookup raises is merely omitted while
every other ledger's result is kept, and the enrichment as a whole always
returns (it never propagates the exception). -/
theorem fetch_payment_requests_spec
    (lookup : String → Except String (Option PaymentRequest))
    (ledgers : List (String × LedgerInfo))
    (hnd : (ledgers.map Prod.fst).Nodup) (t : String) (pr : PaymentRequest) :
    (t, pr) ∈ fetch_payment_requests lookup ledgers ↔
      ∃ info : LedgerInfo, (t, info) ∈ ledgers ∧ info.number ≠ "" ∧
        lookup info.number = .ok (some pr) := by
  rw [fetch_payment_requests,
    fetch_payment_aux lookup ledgers [] (by simp) hnd]
  simp only [List.nil_append, List.mem_filterMap]
  constructor
  · rintro ⟨p, hp, hres⟩
    obtain ⟨ty, info⟩ := p
    by_cases hnum : info.number = ""
    · simp [payment_result, hnum] at hres
    · rcases hlk : lookup info.number with err | opr
      · simp [payment_result, hnum, hlk] at hres
      · rcases opr with _ | pr'
        · simp [payment_result, hnum, hlk] at hres
        · simp only [payment_result, if_neg hnum, hlk] at hres
          obtain ⟨rfl, rfl⟩ : ty = t ∧ pr' = pr := by
            constructor <;> cases hres <;> rfl
          exact ⟨info, hp, hnum, hlk⟩
  · rintro ⟨info, hp, hnum, hlk⟩
    refine ⟨(t, info), hp, ?_⟩
    simp [payment_result, hnum, hlk]

/-- Witness for `fetch_payment_requests_spec`: the gas ledger's lookup raises,
the electricity ledger's succeeds; the electricity request is in the result. -/
theorem fetch_payment_requests_spec_witness :
    ((("FRA_ELECTRICITY_LEDGER" : String), (⟨"PAID", 42, 42, "2026-01-01"⟩ :
        PaymentRequest)) ∈
      fetch_payment_requests
        (fun n => if n = "GAS-001" then .error "parse error"
          else .ok (some ⟨"PAID", 42, 42, "2026-01-01"⟩))
        [("FRA_GAS_LEDGER", ⟨0, "Gaz", "GAS-001"⟩),
         ("FRA_ELECTRICITY_LEDGER", ⟨0, "Electricite", "ELEC-001"⟩)]) ↔
      ∃ info : LedgerInfo,
        (("FRA_ELECTRICITY_LEDGER" : String), info) ∈
          [(("FRA_GAS_LEDGER" : String), (⟨0, "Gaz", "GAS-001"⟩ : LedgerInfo)),
           ("FRA_ELECTRICITY_LEDGER", ⟨0, "Electricite", "ELEC-001"⟩)] ∧
        info.number ≠ "" ∧
        (fun n => if n = "GAS-001" then
            (Except.error "parse error" : Except String (Option PaymentRequest))
          else Except.ok (some ⟨"PAID", 42, 42, "2026-01-01"⟩))
          info.number = Except.ok (some ⟨"PAID", 42, 42, "2026-01-01"⟩) :=
  fetch_payment_requests_spec _ _ (by decide) _ _

/-! ## Ledger extraction `_extract_ledgers` (octopus_french.py, lines 474-543)

The first pass collects the external identifiers (PRMs) of every
non-terminated supply point; the second pass stores each primary ledger under
its type, skipping electricity/gas ledgers whose name embeds (in parentheses)
a meter identifier that is not among the active PRMs; the third pass lets
credit-storage ledgers fill only the still-missing types. -/

/-- The status fields of a raw `meterPoint` dict. -/
structure MeterPointRaw where
  distributorStatus : Option String
  poweredStatus : Option String
deriving DecidableEq

/-- One `supplyPoints.edges[].node`. -/
structure SupplyNode where
  externalIdentifier : Option String
  meterPoint : MeterPointRaw
deriving DecidableEq

/-- One entry of `account["properties"]`. -/
structure PropertyRaw where
  supplyNodes : List SupplyNode
deriving DecidableEq

/-- One entry of the primary `account["ledgers"]` list. -/
structure RawLedger where
  ledgerType : Option String
  name : String
  number : String
  balance : Int
deriving DecidableEq

/-- One entry of `account["creditStorage"]["ledger"]`. -/
structure CreditLedger where
  ledgerType : Option String
  name : String
  number : String
  currentBalance : Int
deriving DecidableEq

/-- The parts of the raw account record that `_extract_ledgers` reads. -/
structure RawAccount where
  properties : List PropertyRaw
  ledgers : List RawLedger
  creditLedgers : List CreditLedger

/-- First loop of `_extract_ledgers` (lines 480-497): the truthy external
identifiers of all supply points that are not terminated
(`distributorStatus == "RESIL" and poweredStatus == "LIMI"`). -/
def active_prms (props : List PropertyRaw) : List String :=
  props.flatMap (fun prop =>
    prop.supplyNodes.filterMap (fun node =>
      if node.meterPoint.distributorStatus == some "RESIL" &&
          node.meterPoint.poweredStatus == some "LIMI" then none
      else
        match node.externalIdentifier with
        | some prm => if prm = "" then none else some prm
        | none => none))

/-- `re.search(r"\((\d+)\)", name)`: scan left to right for the first `(`
followed by a non-empty maximal digit run followed directly by `)`; return the
digit group. -/
def find_meter_id : List Char → Option String
  | [] => none
  | c :: rest =>
    if c = '(' then
      let ds := rest.takeWhile (fun ch => ch.isDigit)
      if ds ≠ [] ∧ (rest.drop ds.length).head? = some ')' then
        some (String.mk ds)
      else find_meter_id rest
    else find_meter_id rest

/-- Second loop of `_extract_ledgers` (lines 499-528): one primary ledger. -/
def process_ledger (prms : List String) (acc : List (String × LedgerInfo))
    (l : RawLedger) : List (String × LedgerInfo) :=
  match l.ledgerType with
  | none => acc
  | some lt =>
    if lt = "" then acc
    else
      let skip : Bool :=
        if lt = "FRA_ELECTRICITY_LEDGER" ∨ lt = "FRA_GAS_LEDGER" then
          match find_meter_id l.name.data with
          | some prm => !(prms.contains prm)
          | none => false
        else false
      if skip then acc
      else dictInsert lt ⟨l.balance, l.name, l.number⟩ acc

/-- Third loop of `_extract_ledgers` (lines 530-541): credit-storage ledgers
only fill missing types. -/
def process_credit (acc : List (String × LedgerInfo)) (c : CreditLedger) :
    List (String × LedgerInfo) :=
  match c.ledgerType with
  | none => acc
  | some lt =>
    if lt = "" then acc
    else if dictContains lt acc then acc
    else dictInsert lt ⟨c.currentBalance, c.name, c.number⟩ acc

/-- `_extract_ledgers`. -/
def extract_ledgers (account : RawAccount) : List (String × LedgerInfo) :=
  let prms := active_prms account.properties
  let afterMain := account.ledgers.foldl (process_ledger prms) []
  account.creditLedgers.foldl process_credit afterMain

/-- Credit-storage processing never adds or removes a type it does not carry. -/
theorem process_credit_fold_contains (credits : List CreditLedger)
    (acc : List (String × LedgerInfo)) (lt : String)
    (h : ∀ c ∈ credits, c.ledgerType ≠ some lt) :
    dictContains lt (credits.foldl process_credit acc) =
      dictContains lt acc := by
  induction credits generalizing acc with
  | nil => rfl
  | cons c rest ih =>
    have hrest : ∀ c' ∈ rest, c'.ledgerType ≠ some lt :=
      fun c' hc' => h c' (List.mem_cons_of_mem _ hc')
    have hc : c.ledgerType ≠ some lt := h c (List.mem_cons_self _ _)
    rw [List.foldl_cons, ih _ hrest]
    rcases hct : c.ledgerType with _ | lt'
    · simp [process_credit, hct]
    · have hne : lt' ≠ lt := by
        intro hcontra
        exact hc (hct.trans (by rw [hcontra]))
      by_cases h0 : lt' = ""
      · simp [process_credit, hct, h0]
      · by_cases h1 : dictContains lt' acc
        · simp [process_credit, hct, h0, h1]
        · simp only [process_credit, hct, if_neg h0, h1, Bool.false_eq_true,
            if_false]
          exact dictContains_insert_ne lt lt' _ acc hne

/-- C6: for an electricity or gas ledger whose name embeds a meter identifier
`m` in parentheses (and with no credit-storage ledger of the same type), the
ledger type is present in the extracted map exactly when `m` is an active PRM —
i.e. exactly when some supply point carries external identifier `m` and is not
terminated; a terminated or absent meter means the ledger is excluded. -/
theorem extract_ledgers_meter_filter (props : List PropertyRaw)
    (credits : List CreditLedger) (l : RawLedger) (lt m : String)
    (hlt : l.ledgerType = some lt)
    (htyp : lt = "FRA_ELECTRICITY_LEDGER" ∨ lt = "FRA_GAS_LEDGER")
    (hm : find_meter_id l.name.data = some m)
    (hcred : ∀ c ∈ credits, c.ledgerType ≠ some lt) :
    (dictContains lt (extract_ledgers ⟨props, [l], credits⟩) = true ↔
      m ∈ active_prms props) ∧
    (m ∈ active_prms props ↔
      ∃ prop ∈ props, ∃ node ∈ prop.supplyNodes,
        node.externalIdentifier = some m ∧ m ≠ "" ∧
        ¬(node.meterPoint.distributorStatus = some "RESIL" ∧
          node.meterPoint.poweredStatus = some "LIMI")) := by
  constructor
  · have hlt0 : lt ≠ "" := by
      rcases htyp with rfl | rfl <;> decide
    have hmain : ([l].foldl (process_ledger (active_prms props)) [])
        = if m ∈ active_prms props then
            [(lt, ⟨l.balance, l.name, l.number⟩)] else [] := by
      simp only [List.foldl_cons, List.foldl_nil, process_ledger, hlt,
        if_neg hlt0, if_pos htyp, hm]
      by_cases hmem : m ∈ active_prms props
      · simp [hmem, dictInsert]
      · simp [hmem]
    rw [extract_ledgers]
    simp only
    rw [process_credit_fold_contains credits _ lt hcred, hmain]
    by_cases hmem : m ∈ active_prms props
    · rw [if_pos hmem]
      simp [dictContains, hmem]
    · rw [if_neg hmem]
      simp [dictContains, hmem]
  · simp only [active_prms, List.mem_flatMap, List.mem_filterMap]
    constructor
    · rintro ⟨prop, hprop, node, hnode, hres⟩
      by_cases hterm : (node.meterPoint.distributorStatus == some "RESIL" &&
          node.meterPoint.poweredStatus == some "LIMI") = true
      · simp [hterm] at hres
      · simp only [hterm, Bool.false_eq_true, if_false] at hres
        rcases hext : node.externalIdentifier with _ | prm
        · simp [hext] at hres
        · simp only [hext] at hres
          by_cases h0 : prm = ""
          · simp [h0] at hres
          · simp only [if_neg h0, Option.some.injEq] at hres
            subst hres
            refine ⟨prop, hprop, node, hnode, hext, h0, ?_⟩
            rintro ⟨hd, hp⟩
            exact hterm (by simp [hd, hp])
    · rintro ⟨prop, hprop, node, hnode, hext, h0, hterm⟩
      refine ⟨prop, hprop, node, hnode, ?_⟩
      have hterm' : (node.meterPoint.distributorStatus == some "RESIL" &&
          node.meterPoint.poweredStatus == some "LIMI") = false := by
        rcases hb : node.meterPoint.distributorStatus == some "RESIL" with _ | _
        · simp
        · rcases hb' : node.meterPoint.poweredStatus == some "LIMI" with _ | _
          · simp [hb, hb']
          · exact absurd ⟨eq_of_beq hb, eq_of_beq hb'⟩ hterm
      simp [hterm', hext, h0]

/-- Witness for `extract_ledgers_meter_filter`: ledger "Electricity (12345)"
whose meter `12345` is active. -/
theorem extract_ledgers_meter_filter_witness :
    (dictContains "FRA_ELECTRICITY_LEDGER"
        (extract_ledgers
          ⟨[⟨[⟨some "12345", ⟨some "SERVC", some "ALIM"⟩⟩]⟩],
           [⟨some "FRA_ELECTRICITY_LEDGER", "Electricity (12345)", "E-1", 0⟩],
           []⟩) = true ↔
      "12345" ∈ active_prms [⟨[⟨some "12345", ⟨some "SERVC", some "ALIM"⟩⟩]⟩]) ∧
    ("12345" ∈ active_prms [⟨[⟨some "12345", ⟨some "SERVC", some "ALIM"⟩⟩]⟩] ↔
      ∃ prop ∈ [(⟨[⟨some "12345", ⟨some "SERVC", some "ALIM"⟩⟩]⟩ : PropertyRaw)],
        ∃ node ∈ prop.supplyNodes,
          node.externalIdentifier = some "12345" ∧ ("12345" : String) ≠ "" ∧
          ¬(node.meterPoint.distributorStatus = some "RESIL" ∧
            node.meterPoint.poweredStatus = some "LIMI")) :=
  extract_ledgers_meter_filter
    [⟨[⟨some "12345", ⟨some "SERVC", some "ALIM"⟩⟩]⟩] []
    ⟨some "FRA_ELECTRICITY_LEDGER", "Electricity (12345)", "E-1", 0⟩
    "FRA_ELECTRICITY_LEDGER" "12345" rfl (Or.inl rfl) (by decide)
    (by intro c hc; simp at hc)

/-! ## Off-peak label parser `parse_off_peak_hours` (utils.py, lines 11-67)

The regex `(\d+)H(\d+)-(\d+)H(\d+)` is matched by taking maximal digit runs:
the greedy `\d+` groups are each followed by a non-digit literal (`H`, `-`) or
the match end, so backtracking to a shorter run always fails (the next char
would be a digit) and leftmost matching reduces to: at each start position,
try the maximal-run match and advance one character on failure; `re.findall`
continues after the previous match's end.  Python floats are modelled by `ℚ`
and `round(x, 2)` by round-half-to-even. -/

/-- Floor of a rational, computed on the reduced fraction. -/
def ratFloor (q : ℚ) : ℤ :=
  q.num.fdiv q.den

/-- Round half to even (Python `round` to 0 digits), on rationals. -/
def rndHalfEven (q : ℚ) : ℤ :=
  let f := ratFloor q
  let r := q - f
  if r < 1/2 then f
  else if 1/2 < r then f + 1
  else if f % 2 = 0 then f else f + 1

/-- Python `round(q, 2)`. -/
def pyRound2 (q : ℚ) : ℚ :=
  (rndHalfEven (q * 100) : ℚ) / 100

/-- Python `int` on a digit group. -/
def digitsToNat (ds : List Char) : Nat :=
  ds.foldl (fun a c => a * 10 + (c.toNat - ('0').toNat)) 0

/-- A maximal non-empty digit run (`\d+`), with its value and the rest. -/
def matchDigits (cs : List Char) : Option (Nat × List Char) :=
  let ds := cs.takeWhile (fun ch => ch.isDigit)
  if ds = [] then none else some (digitsToNat ds, cs.drop ds.length)

/-- A literal character. -/
def matchLit (c : Char) : List Char → Option (List Char)
  | [] => none
  | x :: rest => if x = c then some rest else none

/-- One attempt of `(\d+)H(\d+)-(\d+)H(\d+)` at the start of `cs`: four digit
groups separated by the literals `H`, `-`, `H`. -/
def matchRangeAt (cs : List Char) :
    Option ((Nat × Nat × Nat × Nat) × List Char) :=
  (matchDigits cs).bind (fun p1 =>
    (matchLit ('H') p1.2).bind (fun r2 =>
      (matchDigits r2).bind (fun p2 =>
        (matchLit ('-') p2.2).bind (fun r4 =>
          (matchDigits r4).bind (fun p3 =>
            (matchLit ('H') p3.2).bind (fun r6 =>
              (matchDigits r6).map (fun p4 =>
                ((p1.1, p2.1, p3.1, p4.1), p4.2))))))))

theorem matchDigits_rem_lt {cs rem : List Char} {n : Nat}
    (h : matchDigits cs = some (n, rem)) : rem.length < cs.length := by
  simp only [matchDigits] at h
  rcases hds : cs.takeWhile (fun ch => ch.isDigit) with _ | ⟨d, ds⟩
  · rw [hds] at h
    simp at h
  · rw [hds] at h
    simp only [reduceCtorEq, if_false, Option.some.injEq, Prod.mk.injEq] at h
    obtain ⟨-, rfl⟩ := h
    have hle : (d :: ds).length ≤ cs.length := by
      have := List.takeWhile_sublist (l := cs) (p := fun ch => ch.isDigit)
      rw [hds] at this
      exact this.length_le
    simp only [List.length_drop, List.length_cons]
    simp only [List.length_cons] at hle
    omega

theorem matchLit_rem_lt {c : Char} {cs rem : List Char}
    (h : matchLit c cs = some rem) : rem.length < cs.length := by
  cases cs with
  | nil => simp [matchLit] at h
  | cons x rest =>
    simp only [matchLit] at h
    by_cases hx : x = c
    · rw [if_pos hx] at h
      cases h
      simp
    · rw [if_neg hx] at h
      cases h

theorem matchRangeAt_rem_lt {cs rem : List Char} {m : Nat × Nat × Nat × Nat}
    (h : matchRangeAt cs = some (m, rem)) : rem.length < cs.length := by
  simp only [matchRangeAt, Option.bind_eq_some, Option.map_eq_some'] at h
  obtain ⟨p1, h1, r2, h2, p2, h3, r4, h4, p3, h5, r6, h6, p4, h7, heq⟩ := h
  have hrem : rem = p4.2 := by
    have := congrArg Prod.snd heq
    exact this.symm
  have l1 := matchDigits_rem_lt h1
  have l2 := matchLit_rem_lt h2
  have l3 := matchDigits_rem_lt h3
  have l4 := matchLit_rem_lt h4
  have l5 := matchDigits_rem_lt h5
  have l6 := matchLit_rem_lt h6
  have l7 := matchDigits_rem_lt h7
  rw [hrem]
  omega

/-- `re.findall` of the time-range pattern: scan left to right, emitting
non-overlapping matches and advancing one character after a failed start.  The
fuel argument only bounds the recursion; one unit is spent per step while the
scanned list shrinks by at least one character per step (strictly more on a
match, see `matchRangeAt_rem_lt`), so `fuel = cs.length` never runs out. -/
def scanRangesFuel : Nat → List Char → List (Nat × Nat × Nat × Nat)
  | 0, _ => []
  | _ + 1, [] => []
  | fuel + 1, c :: rest =>
    match matchRangeAt (c :: rest) with
    | some (m, remaining) => m :: scanRangesFuel fuel remaining
    | none => scanRangesFuel fuel rest

/-- The scan over a whole character list. -/
def scanRanges (cs : List Char) : List (Nat × Nat × Nat × Nat) :=
  scanRangesFuel cs.length cs

/-- Python `f"{n:02d}"` for a natural number. -/
def pad2 (n : Nat) : String :=
  if n < 10 then "0" ++ toString n else toString n

/-- One entry of `result["ranges"]`. -/
structure OffPeakRange where
  start_str : String
  end_str : String
  start_minutes : ℤ
  end_minutes : ℤ
  duration_minutes : ℤ
  duration_hours : ℚ
deriving DecidableEq

/-- The range record built in the loop body (utils.py lines 34-59). -/
def mkRange (m : Nat × Nat × Nat × Nat) : OffPeakRange :=
  let sh := m.1
  let sm := m.2.1
  let eh := m.2.2.1
  let em := m.2.2.2
  let start_minutes : ℤ := sh * 60 + sm
  let end_minutes : ℤ := eh * 60 + em
  let duration_minutes : ℤ :=
    if start_minutes ≤ end_minutes then end_minutes - start_minutes
    else (24 * 60 - start_minutes) + end_minutes
  ⟨pad2 sh ++ ":" ++ pad2 sm, pad2 eh ++ ":" ++ pad2 em,
   start_minutes, end_minutes, duration_minutes,
   pyRound2 ((duration_minutes : ℚ) / 60)⟩

/-- The parser's result dict. -/
structure OffPeakResult where
  type : Option String
  ranges : List OffPeakRange
  total_hours : ℚ
  range_count : Nat
deriving DecidableEq

/-- `parse_off_peak_hours` (utils.py lines 11-67). -/
def parse_off_peak_hours (off_peak_label : Option String) : OffPeakResult :=
  match off_peak_label with
  | none => ⟨none, [], 0, 0⟩
  | some s =>
    if s = "" then ⟨none, [], 0, 0⟩
    else
      let tcs := s.data.takeWhile (fun ch => ch.isUpper)
      let ty := if tcs = [] then none else some (String.mk tcs)
      let ranges := (scanRanges s.data).map mkRange
      let total_minutes : ℤ :=
        ranges.foldl (fun a r => a + r.duration_minutes) 0
      ⟨ty, ranges, pyRound2 ((total_minutes : ℚ) / 60), ranges.length⟩

theorem foldl_add_durations (l : List OffPeakRange) (a : ℤ) :
    l.foldl (fun x r => x + r.duration_minutes) a
      = a + (l.map (fun r => r.duration_minutes)).sum := by
  induction l generalizing a with
  | nil => simp
  | cons r rest ih => simp [ih, add_assoc]

/-- C10: every parsed time range's duration is `end − start` minutes, except
when the end is strictly before the start, in which case the range crosses
midnight and the duration is `(24·60 − start) + end`; `total_hours` is the sum
of all durations divided by 60 and rounded to 2 decimal places (half to even);
`range_count` is the number of ranges; a `None` or empty label yields zero
ranges and `total_hours = 0`. -/
theorem parse_off_peak_hours_spec (label : Option String) :
    (∀ r ∈ (parse_off_peak_hours label).ranges,
      r.duration_minutes =
        if r.end_minutes < r.start_minutes then
          (24 * 60 - r.start_minutes) + r.end_minutes
        else r.end_minutes - r.start_minutes) ∧
    (parse_off_peak_hours label).total_hours =
      pyRound2
        ((((parse_off_peak_hours label).ranges.map
            (fun r => r.duration_minutes)).sum : ℚ) / 60) ∧
    (parse_off_peak_hours label).range_count =
      (parse_off_peak_hours label).ranges.length ∧
    ((label = none ∨ label = some "") →
      (parse_off_peak_hours label).ranges = [] ∧
      (parse_off_peak_hours label).total_hours = 0) := by
  have hzero : pyRound2 ((0 : ℚ) / 60) = 0 := by
    have h0 : ((0 : ℚ) / 60) * 100 = 0 := by norm_num
    rw [pyRound2, h0]
    norm_num [rndHalfEven, ratFloor]
  refine ⟨?_, ?_, ?_, ?_⟩
  · intro r hr
    rcases label with _ | s
    · simp [parse_off_peak_hours] at hr
    · by_cases hs : s = ""
      · simp [parse_off_peak_hours, hs] at hr
      · simp only [parse_off_peak_hours, if_neg hs] at hr
        rcases List.mem_map.mp hr with ⟨m, _, rfl⟩
        simp only [mkRange]
        by_cases hle :
            ((m.1 : ℤ) * 60 + m.2.1 : ℤ) ≤ ((m.2.2.1 : ℤ) * 60 + m.2.2.2 : ℤ)
        · rw [if_pos hle, if_neg (by omega)]
        · rw [if_neg hle, if_pos (by omega)]
  · rcases label with _ | s
    · simpa [parse_off_peak_hours] using hzero.symm
    · by_cases hs : s = ""
      · simp only [parse_off_peak_hours, if_pos hs]
        simpa using hzero.symm
      · simp only [parse_off_peak_hours, if_neg hs]
        rw [foldl_add_durations, zero_add]
        congr 1
        push_cast
        simp only [List.map_map]
        rfl
  · rcases label with _ | s
    · simp [parse_off_peak_hours]
    · by_cases hs : s = ""
      · simp [parse_off_peak_hours, hs]
      · simp [parse_off_peak_hours, hs]
  · rintro (rfl | rfl)
    · simp [parse_off_peak_hours]
    · simp [parse_off_peak_hours]

/-- Witness for `parse_off_peak_hours_spec` at the label "HC (2H00-6H00)". -/
theorem parse_off_peak_hours_spec_witness :
    (∀ r ∈ (parse_off_peak_hours (some "HC (2H00-6H00)")).ranges,
      r.duration_minutes =
        if r.end_minutes < r.start_minutes then
          (24 * 60 - r.start_minutes) + r.end_minutes
        else r.end_minutes - r.start_minutes) ∧
    (parse_off_peak_hours (some "HC (2H00-6H00)")).total_hours =
      pyRound2
        ((((parse_off_peak_hours (some "HC (2H00-6H00)")).ranges.map
            (fun r => r.duration_minutes)).sum : ℚ) / 60) ∧
    (parse_off_peak_hours (some "HC (2H00-6H00)")).range_count =
      (parse_off_peak_hours (some "HC (2H00-6H00)")).ranges.length ∧
    (((some "HC (2H00-6H00)" : Option String) = none ∨
        (some "HC (2H00-6H00)" : Option String) = some "") →
      (parse_off_peak_hours (some "HC (2H00-6H00)")).ranges = [] ∧
      (parse_off_peak_hours (some "HC (2H00-6H00)")).total_hours = 0) :=
  parse_off_peak_hours_spec (some "HC (2H00-6H00)")

